import Mathlib

/-!
Shallow embedding of the transformation-chain validator and cyclic executor
(`TransformationPipeline` in `src/Eh.py`).  The primary variant embedded is the
one at lines 794-914 (AppConfig / TypedDict `ExecutionResult`); the later
variant at lines 1037-1156 differs only in how `successful_closure` and the
initial-code snippet are computed and is embedded as `execute_generation3`.
Machine integers do not occur; Python strings are modelled as Lean `String`
and line splitting is modelled on the newline character.  Python exceptions
(`ValueError` / `RuntimeError` at construction, `SystemError` during
execution) are modelled with `Except String`.
-/

namespace Ouroboros

/-- One transformation step: `TransformationStep(input_lang, output_lang, generator)`
(NamedTuple, Eh.py lines 750-753). -/
structure TransformationStep where
  input_lang : String
  output_lang : String
  generator : String → String

/-- One history record: `HistoryEntry` (Eh.py lines 756-762). -/
structure HistoryEntry where
  cycle : Nat
  step_in_cycle : Nat
  input_lang : String
  output_lang : String
  code_length : Nat
deriving DecidableEq

/-- The structured result of `execute_generation` (Eh.py lines 764-771). -/
structure ExecutionResult where
  final_code : String
  cycles_run : Nat
  final_language : String
  transformation_history : List HistoryEntry
  initial_code_snippet : String
  successful_closure : Bool
deriving DecidableEq

/-- The adjacency scan of `_validate_chain_integrity` (Eh.py lines 817-828):
walk the chain left to right and report the first pair whose output language
differs from the next input language. -/
def adjacencyError : List TransformationStep → Option String
  | a :: b :: rest =>
      if a.output_lang ≠ b.input_lang then
        some "Chain discontinuity detected."
      else adjacencyError (b :: rest)
  | _ => none

/-- `TransformationPipeline.__init__` (Eh.py lines 800-843): reject an empty
chain, then `_validate_chain_integrity` (adjacency scan followed by the
start-language check), then `_validate_ouroboros_closure`, which compares the
last step's output language with `chain[0].input_lang`.  On success the stored
chain is the argument list itself. -/
def pipelineInit (startLang : String) (transformations : List TransformationStep) :
    Except String (List TransformationStep) :=
  match transformations with
  | [] => Except.error "The transformation sequence cannot be empty."
  | s0 :: rest =>
    match adjacencyError (s0 :: rest) with
    | some e => Except.error e
    | none =>
      if s0.input_lang ≠ startLang then
        Except.error "Pipeline initialization error: wrong start language."
      else if (rest.getLastD s0).output_lang ≠ s0.input_lang then
        Except.error "Ouroboros closure validation failed."
      else Except.ok (s0 :: rest)

/-- The mutable locals of `execute_generation` together with the engine's
chain attribute (read, never written, by the loop body). -/
structure ExecState where
  chain : List TransformationStep
  current_code : String
  current_language : String
  history : List HistoryEntry

/-- The inner `for step_index, step in enumerate(self.chain)` loop of
`execute_generation` (Eh.py lines 866-892): the defensive state check raising
`SystemError`, the transformation, the state update and the history append. -/
def runSteps (cycleNum : Nat) : Nat → List TransformationStep → ExecState →
    Except String ExecState
  | _, [], st => Except.ok st
  | idx, step :: rest, st =>
      if step.input_lang ≠ st.current_language then
        Except.error "FATAL: Internal pipeline state corrupted."
      else
        let newCode := step.generator st.current_code
        runSteps cycleNum (idx + 1) rest
          { st with
            current_code := newCode
            current_language := step.output_lang
            history := st.history ++
              [⟨cycleNum, idx + 1, step.input_lang, step.output_lang, newCode.length⟩] }

/-- The outer `for cycle_num in range(1, max_cycles + 1)` loop (Eh.py lines
864-898): run one full pass of the chain, then break with the closure flag set
when the current language has returned to the start language.  Returns
(`cycles_run`, `successful_closure`, final locals); when the budget is
exhausted `cycles_run` is the last executed cycle number. -/
def execCycles (startLang : String) : Nat → Nat → ExecState →
    Except String (Nat × Bool × ExecState)
  | 0, cycleNum, st => Except.ok (cycleNum - 1, false, st)
  | fuel + 1, cycleNum, st =>
      match runSteps cycleNum 0 st.chain st with
      | Except.error e => Except.error e
      | Except.ok st' =>
          if st'.current_language = startLang then
            Except.ok (cycleNum, true, st')
          else
            execCycles startLang fuel (cycleNum + 1) st'

/-- Entry of the execution loop from the initial locals of
`execute_generation`: `current_code = initial_code`,
`current_language = START_LANG`, empty history, cycle counter starting at 1. -/
def executeState (chain : List TransformationStep) (startLang initial_code : String)
    (max_cycles : Nat) : Except String (Nat × Bool × ExecState) :=
  execCycles startLang max_cycles 1 ⟨chain, initial_code, startLang, []⟩

/-- Model of Python's `str.strip()`: remove leading and trailing whitespace
characters. -/
def pyStrip (s : String) : String :=
  String.mk (((s.data.dropWhile Char.isWhitespace).reverse.dropWhile Char.isWhitespace).reverse)

/-- Helper for `splitNl`: accumulate the current line (reversed) while
scanning. -/
def splitNlAux : List Char → List Char → List String
  | [], acc => [String.mk acc.reverse]
  | c :: cs, acc =>
      if c = '\n' then String.mk acc.reverse :: splitNlAux cs []
      else splitNlAux cs (c :: acc)

/-- Model of Python's line splitting: split a string at newline characters. -/
def splitNl (s : String) : List String := splitNlAux s.data []

/-- The snippet expression of the primary variant (Eh.py line 911):
`initial_code.strip().splitlines()[0] if initial_code.strip() else "N/A"`. -/
def snippetV2 (initial_code : String) : String :=
  if pyStrip initial_code = "" then "N/A"
  else (splitNl (pyStrip initial_code)).headD ""

/-- `TransformationPipeline.execute_generation` (Eh.py lines 845-914),
assembling the `ExecutionResult` from the loop's final locals. -/
def execute_generation (chain : List TransformationStep)
    (startLang initial_code : String) (max_cycles : Nat) :
    Except String ExecutionResult :=
  match executeState chain startLang initial_code max_cycles with
  | Except.error e => Except.error e
  | Except.ok (cyclesRun, closure, st) =>
      Except.ok
        { final_code := st.current_code
          cycles_run := cyclesRun
          final_language := st.current_language
          transformation_history := st.history
          initial_code_snippet := snippetV2 initial_code
          successful_closure := closure }

/-- `extract_first_line` (Eh.py lines 1005-1014): `"N/A"` for the empty
string, otherwise the first line that is non-empty after stripping, or
`"N/A"` when every line strips to empty. -/
def extract_first_line (code : String) : String :=
  if code = "" then "N/A"
  else
    match ((splitNl code).map pyStrip).filter (fun l => l != "") with
    | [] => "N/A"
    | l :: _ => l

/-- The later `TransformationPipeline.execute_generation` variant (Eh.py lines
1093-1156).  Its loop body is identical to the primary variant's (same
defensive check, same update and history append, same break condition), so it
reuses `executeState`; it differs in computing `successful_closure` after the
loop as `current_language == START_LANG` (lines 1142-1143) and in using
`extract_first_line` for the snippet (line 1154). -/
def execute_generation3 (chain : List TransformationStep)
    (startLang initial_code : String) (max_cycles : Nat) :
    Except String ExecutionResult :=
  match executeState chain startLang initial_code max_cycles with
  | Except.error e => Except.error e
  | Except.ok (cyclesRun, _, st) =>
      Except.ok
        { final_code := st.current_code
          cycles_run := cyclesRun
          final_language := st.current_language
          transformation_history := st.history
          initial_code_snippet := extract_first_line initial_code
          successful_closure := st.current_language == startLang }

/-- A chain segment links up from a given current language: each step's input
language matches the language produced so far. -/
def links : String → List TransformationStep → Prop
  | _, [] => True
  | lang, s :: rest => s.input_lang = lang ∧ links s.output_lang rest

/-- The language reached after running a chain segment from a given language. -/
def endLang : String → List TransformationStep → String
  | lang, [] => lang
  | _, s :: rest => endLang s.output_lang rest

/-- Left-to-right composition of a segment's generators. -/
def applySeg (code : String) (seg : List TransformationStep) : String :=
  seg.foldl (fun c s => s.generator c) code

/-- The history entries appended by one pass over a segment. -/
def mkEntries : Nat → Nat → String → List TransformationStep → List HistoryEntry
  | _, _, _, [] => []
  | cyc, idx, code, s :: rest =>
      ⟨cyc, idx + 1, s.input_lang, s.output_lang, (s.generator code).length⟩ ::
        mkEntries cyc (idx + 1) (s.generator code) rest

theorem mkEntries_length :
    ∀ (cyc idx : Nat) (code : String) (seg : List TransformationStep),
      (mkEntries cyc idx code seg).length = seg.length
  | _, _, _, [] => rfl
  | cyc, idx, code, s :: rest => by
      simp [mkEntries, mkEntries_length cyc (idx + 1) (s.generator code) rest]

theorem adjacencyError_eq_none_iff :
    ∀ t : List TransformationStep,
      adjacencyError t = none ↔ t.Chain' (fun a b => a.output_lang = b.input_lang)
  | [] => by simp [adjacencyError]
  | [_] => by simp [adjacencyError]
  | a :: b :: rest => by
      rw [adjacencyError]
      split_ifs with h
      · simp [List.chain'_cons, h]
      · rw [not_ne_iff] at h
        simp [List.chain'_cons, h, adjacencyError_eq_none_iff (b :: rest)]

theorem links_of_adjacency :
    ∀ (s0 : TransformationStep) (rest : List TransformationStep),
      adjacencyError (s0 :: rest) = none → links s0.input_lang (s0 :: rest)
  | _, [], _ => ⟨rfl, trivial⟩
  | s0, b :: rs, h => by
      rw [adjacencyError] at h
      split_ifs at h with hne
      rw [not_ne_iff] at hne
      exact ⟨rfl, by rw [hne]; exact links_of_adjacency b rs h⟩

theorem endLang_cons :
    ∀ (lang : String) (s0 : TransformationStep) (rest : List TransformationStep),
      endLang lang (s0 :: rest) = (rest.getLastD s0).output_lang
  | _, _, [] => rfl
  | lang, s0, b :: rs => by
      rw [endLang, List.getLastD_cons]
      exact endLang_cons s0.output_lang b rs

theorem getLast?_cons_eq {α : Type} :
    ∀ (s0 : α) (rest : List α), (s0 :: rest).getLast? = some (rest.getLastD s0)
  | _, [] => rfl
  | s0, b :: rs => by
      rw [List.getLast?_cons_cons, List.getLastD_cons]
      exact getLast?_cons_eq b rs

theorem runSteps_ok :
    ∀ (seg : List TransformationStep) (cyc idx : Nat) (st : ExecState),
      links st.current_language seg →
      runSteps cyc idx seg st =
        Except.ok ⟨st.chain, applySeg st.current_code seg,
          endLang st.current_language seg,
          st.history ++ mkEntries cyc idx st.current_code seg⟩
  | [], cyc, idx, st, _ => by simp [runSteps, applySeg, endLang, mkEntries]
  | s :: rest, cyc, idx, st, h => by
      obtain ⟨h1, h2⟩ := h
      rw [runSteps, if_neg (by simp [h1])]
      rw [runSteps_ok rest cyc (idx + 1) _ h2]
      simp [applySeg, endLang, mkEntries]

theorem valid_elim {startLang : String} {t chain : List TransformationStep}
    (h : pipelineInit startLang t = Except.ok chain) :
    ∃ s0 rest, t = s0 :: rest ∧ chain = t ∧ adjacencyError t = none ∧
      s0.input_lang = startLang ∧ (rest.getLastD s0).output_lang = s0.input_lang := by
  cases t with
  | nil => simp [pipelineInit] at h
  | cons s0 rest =>
    refine ⟨s0, rest, rfl, ?_⟩
    rw [pipelineInit] at h
    cases hA : adjacencyError (s0 :: rest) with
    | some e => rw [hA] at h; simp at h
    | none =>
      rw [hA] at h
      by_cases h1 : s0.input_lang ≠ startLang
      · rw [if_pos h1] at h; exact absurd h (by simp)
      · rw [if_neg h1] at h
        by_cases h2 : (rest.getLastD s0).output_lang ≠ s0.input_lang
        · rw [if_pos h2] at h; exact absurd h (by simp)
        · rw [if_neg h2] at h
          rw [not_ne_iff] at h1 h2
          simp only [Except.ok.injEq] at h
          exact ⟨h.symm, rfl, h1, h2⟩

theorem links_of_valid {startLang : String} {t chain : List TransformationStep}
    (h : pipelineInit startLang t = Except.ok chain) : links startLang chain := by
  obtain ⟨s0, rest, rfl, rfl, hA, h1, _⟩ := valid_elim h
  rw [← h1]
  exact links_of_adjacency s0 rest hA

theorem endLang_of_valid {startLang : String} {t chain : List TransformationStep}
    (h : pipelineInit startLang t = Except.ok chain) :
    endLang startLang chain = startLang := by
  obtain ⟨s0, rest, rfl, rfl, _, h1, h2⟩ := valid_elim h
  rw [endLang_cons, h2, h1]

theorem executeState_zero (chain : List TransformationStep) (startLang code : String) :
    executeState chain startLang code 0 =
      Except.ok (0, false, ⟨chain, code, startLang, []⟩) := rfl

theorem executeState_pos {startLang : String} {t chain : List TransformationStep}
    (h : pipelineInit startLang t = Except.ok chain) (code : String)
    {mc : Nat} (hmc : 1 ≤ mc) :
    executeState chain startLang code mc =
      Except.ok (1, true,
        ⟨chain, applySeg code chain, startLang, mkEntries 1 0 code chain⟩) := by
  obtain ⟨fuel, rfl⟩ : ∃ f, mc = f + 1 := ⟨mc - 1, by omega⟩
  rw [executeState, execCycles]
  have hrun := runSteps_ok chain 1 0 ⟨chain, code, startLang, []⟩ (links_of_valid h)
  simp only [List.nil_append, endLang_of_valid h] at hrun
  rw [hrun]
  simp

theorem execute_zero (chain : List TransformationStep) (startLang code : String) :
    execute_generation chain startLang code 0 =
      Except.ok ⟨code, 0, startLang, [], snippetV2 code, false⟩ := rfl

theorem execute_pos {startLang : String} {t chain : List TransformationStep}
    (h : pipelineInit startLang t = Except.ok chain) (code : String)
    {mc : Nat} (hmc : 1 ≤ mc) :
    execute_generation chain startLang code mc =
      Except.ok ⟨applySeg code chain, 1, startLang, mkEntries 1 0 code chain,
        snippetV2 code, true⟩ := by
  rw [execute_generation, executeState_pos h code hmc]

theorem execute3_zero (chain : List TransformationStep) (startLang code : String) :
    execute_generation3 chain startLang code 0 =
      Except.ok ⟨code, 0, startLang, [], extract_first_line code, true⟩ := by
  rw [execute_generation3, executeState_zero]
  simp

theorem execute3_pos {startLang : String} {t chain : List TransformationStep}
    (h : pipelineInit startLang t = Except.ok chain) (code : String)
    {mc : Nat} (hmc : 1 ≤ mc) :
    execute_generation3 chain startLang code mc =
      Except.ok ⟨applySeg code chain, 1, startLang, mkEntries 1 0 code chain,
        extract_first_line code, true⟩ := by
  rw [execute_generation3, executeState_pos h code hmc]
  simp

/-- True when execution returned normally rather than raising. -/
def returnsNormally (x : Except String ExecutionResult) : Bool :=
  match x with
  | Except.ok _ => true
  | Except.error _ => false

/-- A concrete closed two-step chain (Ruby -> Python -> Ruby) used to
instantiate the theorems below on concrete inputs. -/
def stepRP : TransformationStep := ⟨"Ruby", "Python", fun s => s ++ "!"⟩

/-- The closing step of the concrete demonstration chain. -/
def stepPR : TransformationStep := ⟨"Python", "Ruby", fun s => s ++ "?"⟩

/-- The concrete demonstration chain. -/
def demoChain : List TransformationStep := [stepRP, stepPR]

/-- The result of executing the demonstration chain on "x" with a cycle
budget of at least 1. -/
def demoRun : ExecutionResult :=
  ⟨"x!?", 1, "Ruby", [⟨1, 1, "Ruby", "Python", 2⟩, ⟨1, 2, "Python", "Ruby", 3⟩],
    "x", true⟩

/-- The final loop state of `executeState` on the demonstration chain. -/
def demoState : ExecState :=
  ⟨demoChain, "x!?", "Ruby",
    [⟨1, 1, "Ruby", "Python", 2⟩, ⟨1, 2, "Python", "Ruby", 3⟩]⟩

/-- The result of executing the demonstration chain with `max_cycles = 0`
under the primary variant. -/
def demoRun0 : ExecutionResult := ⟨"x", 0, "Ruby", [], "x", false⟩

/-- The result of executing the demonstration chain with `max_cycles = 0`
under the later variant, whose closure flag is computed after the loop. -/
def demoRun0c : ExecutionResult := ⟨"x", 0, "Ruby", [], "x", true⟩

/-- C1: constructing the pipeline from a list of steps succeeds exactly when
none of the four configuration errors applies: the list is non-empty, the
first step's input label equals the configured start label, every adjacent
pair of steps is contiguous, and the last step's output label equals the
start label. -/
theorem construction_failure_cases (startLang : String)
    (t : List TransformationStep) :
    (∃ chain, pipelineInit startLang t = Except.ok chain) ↔
      (t ≠ [] ∧ (∀ s0 ∈ t.head?, s0.input_lang = startLang) ∧
        List.Chain' (fun a b => a.output_lang = b.input_lang) t ∧
        (∀ sl ∈ t.getLast?, sl.output_lang = startLang)) := by
  cases t with
  | nil => simp [pipelineInit]
  | cons s0 rest =>
    constructor
    · rintro ⟨chain, h⟩
      obtain ⟨s0', rest', heq, -, hA, h1, h2⟩ := valid_elim h
      obtain ⟨rfl, rfl⟩ := List.cons.inj heq
      refine ⟨by simp, by simp [h1], (adjacencyError_eq_none_iff _).mp hA, ?_⟩
      intro sl hsl
      rw [getLast?_cons_eq] at hsl
      simp only [Option.mem_def, Option.some.injEq] at hsl
      rw [← hsl, h2, h1]
    · rintro ⟨-, hhead, hchain, hlast⟩
      have h1 : s0.input_lang = startLang := hhead s0 (by simp)
      have hA : adjacencyError (s0 :: rest) = none :=
        (adjacencyError_eq_none_iff _).mpr hchain
      have h2 : (rest.getLastD s0).output_lang = startLang :=
        hlast _ (by rw [getLast?_cons_eq]; rfl)
      refine ⟨s0 :: rest, ?_⟩
      simp only [pipelineInit, hA]
      rw [if_neg (by rw [not_ne_iff]; exact h1),
        if_neg (by rw [not_ne_iff, h2, h1])]

/-- C2: for every successfully constructed chain of N steps, every initial
text and every cycle budget, the returned history length equals
`cycles_run * N`: closure is only tested after a full repetition, so the
history never contains a partial repetition. -/
theorem history_length_eq_cycles_mul_steps (startLang : String)
    (t chain : List TransformationStep)
    (h : pipelineInit startLang t = Except.ok chain) (code : String) (mc : Nat)
    (r : ExecutionResult)
    (hr : execute_generation chain startLang code mc = Except.ok r) :
    r.transformation_history.length = r.cycles_run * chain.length := by
  cases mc with
  | zero =>
    rw [execute_zero] at hr
    simp only [Except.ok.injEq] at hr
    subst hr
    simp
  | succ n =>
    rw [execute_pos h code (by omega)] at hr
    simp only [Except.ok.injEq] at hr
    subst hr
    simp [mkEntries_length]

/-- C2 witness: the demonstration chain on "x" with budget 2. -/
theorem history_length_eq_cycles_mul_steps_witness :
    demoRun.transformation_history.length = demoRun.cycles_run * demoChain.length :=
  history_length_eq_cycles_mul_steps "Ruby" demoChain demoChain rfl "x" 2 demoRun rfl

/-- C3: on a valid closed chain with `max_cycles = 1`, execution either
reaches closure with `successful_closure = true` and `cycles_run = 1`, or
sets `successful_closure = false`. -/
theorem single_cycle_closure (startLang : String)
    (t chain : List TransformationStep)
    (h : pipelineInit startLang t = Except.ok chain) (code : String)
    (r : ExecutionResult)
    (hr : execute_generation chain startLang code 1 = Except.ok r) :
    (r.successful_closure = true ∧ r.cycles_run = 1) ∨
      r.successful_closure = false := by
  left
  rw [execute_pos h code (by omega)] at hr
  simp only [Except.ok.injEq] at hr
  subst hr
  exact ⟨rfl, rfl⟩

/-- C3 witness: the demonstration chain on "x" with budget 1. -/
theorem single_cycle_closure_witness :
    (demoRun.successful_closure = true ∧ demoRun.cycles_run = 1) ∨
      demoRun.successful_closure = false :=
  single_cycle_closure "Ruby" demoChain demoChain rfl "x" demoRun rfl

/-- C4 counterexample: on the validly constructed demonstration chain, the
later `execute_generation` variant (Eh.py lines 1093-1156) called with
`max_cycles = 0` reports `successful_closure = True`, not `False` as the
claim states, because its closure flag is computed after the loop from the
unchanged start label. -/
theorem max_cycles_zero_counterexample :
    pipelineInit "Ruby" demoChain = Except.ok demoChain ∧
      (execute_generation3 demoChain "Ruby" "x" 0).map
          ExecutionResult.successful_closure = Except.ok true :=
  ⟨rfl, rfl⟩

/-- C4 amended: with `max_cycles = 0` no repetition runs, the history is
empty and `cycles_run = 0` in both variants; the primary variant (Eh.py
lines 845-914) reports `successful_closure = false`, while the later variant
(lines 1093-1156) reports `successful_closure = true` since it evaluates the
closure condition after the loop on the unchanged start label. -/
theorem max_cycles_zero_amended (startLang : String)
    (t chain : List TransformationStep)
    (_h : pipelineInit startLang t = Except.ok chain) (code : String)
    (r r3 : ExecutionResult)
    (hr : execute_generation chain startLang code 0 = Except.ok r)
    (hr3 : execute_generation3 chain startLang code 0 = Except.ok r3) :
    r.transformation_history = [] ∧ r.cycles_run = 0 ∧
      r.successful_closure = false ∧
      r3.transformation_history = [] ∧ r3.cycles_run = 0 ∧
      r3.successful_closure = true := by
  rw [execute_zero] at hr
  rw [execute3_zero] at hr3
  simp only [Except.ok.injEq] at hr hr3
  subst hr
  subst hr3
  exact ⟨rfl, rfl, rfl, rfl, rfl, rfl⟩

/-- C4 witness: the demonstration chain on "x" with budget 0. -/
theorem max_cycles_zero_amended_witness :
    demoRun0.transformation_history = [] ∧ demoRun0.cycles_run = 0 ∧
      demoRun0.successful_closure = false ∧
      demoRun0c.transformation_history = [] ∧ demoRun0c.cycles_run = 0 ∧
      demoRun0c.successful_closure = true :=
  max_cycles_zero_amended "Ruby" demoChain demoChain rfl "x" demoRun0 demoRun0c
    rfl rfl

/-- C5: on a successfully constructed chain the defensive in-loop state
check never fires: execution never raises the internal-state-corruption
error and always returns normally, for every initial text and cycle
budget. -/
theorem defensive_check_unreachable (startLang : String)
    (t chain : List TransformationStep)
    (h : pipelineInit startLang t = Except.ok chain) (code : String) (mc : Nat) :
    returnsNormally (execute_generation chain startLang code mc) = true := by
  cases mc with
  | zero => rw [execute_zero]; rfl
  | succ n => rw [execute_pos h code (by omega)]; rfl

/-- C5 witness: the demonstration chain on "x" with budget 5. -/
theorem defensive_check_unreachable_witness :
    returnsNormally (execute_generation demoChain "Ruby" "x" 5) = true :=
  defensive_check_unreachable "Ruby" demoChain demoChain rfl "x" 5

/-- C6: on a successfully constructed chain, for every cycle budget of at
least 1, execution stops right after the repetition that returns to the
start label (which is always the first): `cycles_run = 1` and the history
holds exactly one repetition's worth of entries, even when cycles remain. -/
theorem closure_stops_execution (startLang : String)
    (t chain : List TransformationStep)
    (h : pipelineInit startLang t = Except.ok chain) (code : String) (mc : Nat)
    (hmc : 1 ≤ mc) (r : ExecutionResult)
    (hr : execute_generation chain startLang code mc = Except.ok r) :
    r.cycles_run = 1 ∧ r.successful_closure = true ∧
      r.transformation_history.length = chain.length := by
  rw [execute_pos h code hmc] at hr
  simp only [Except.ok.injEq] at hr
  subst hr
  exact ⟨rfl, rfl, mkEntries_length 1 0 code chain⟩

/-- C6 witness: the demonstration chain on "x" with budget 3 still stops
after one repetition. -/
theorem closure_stops_execution_witness :
    demoRun.cycles_run = 1 ∧ demoRun.successful_closure = true ∧
      demoRun.transformation_history.length = demoChain.length :=
  closure_stops_execution "Ruby" demoChain demoChain rfl "x" 3 (by omega)
    demoRun rfl

/-- C7: execution is deterministic: two calls on a successfully constructed
chain with identical initial text and cycle budget yield identical
`ExecutionResult` contents, field by field (transforms are Lean functions
and hence pure by construction). -/
theorem execute_deterministic (startLang : String)
    (t chain : List TransformationStep)
    (_h : pipelineInit startLang t = Except.ok chain) (code : String) (mc : Nat)
    (r1 r2 : ExecutionResult)
    (hr1 : execute_generation chain startLang code mc = Except.ok r1)
    (hr2 : execute_generation chain startLang code mc = Except.ok r2) :
    r1.final_code = r2.final_code ∧ r1.cycles_run = r2.cycles_run ∧
      r1.final_language = r2.final_language ∧
      r1.transformation_history = r2.transformation_history ∧
      r1.initial_code_snippet = r2.initial_code_snippet ∧
      r1.successful_closure = r2.successful_closure := by
  have heq : r1 = r2 := by
    have := hr1.symm.trans hr2
    simpa using this
  subst heq
  exact ⟨rfl, rfl, rfl, rfl, rfl, rfl⟩

/-- C7 witness: two identical calls on the demonstration chain. -/
theorem execute_deterministic_witness :
    demoRun.final_code = demoRun.final_code ∧
      demoRun.cycles_run = demoRun.cycles_run ∧
      demoRun.final_language = demoRun.final_language ∧
      demoRun.transformation_history = demoRun.transformation_history ∧
      demoRun.initial_code_snippet = demoRun.initial_code_snippet ∧
      demoRun.successful_closure = demoRun.successful_closure :=
  execute_deterministic "Ruby" demoChain demoChain rfl "x" 2 demoRun demoRun
    rfl rfl

/-- C8: execution never modifies the engine's chain: the chain field of the
loop state after any successful execution equals the chain before it, so the
same engine re-executes with identical behaviour. -/
theorem execute_preserves_chain (startLang : String)
    (t chain : List TransformationStep)
    (h : pipelineInit startLang t = Except.ok chain) (code : String) (mc : Nat)
    (cyc : Nat) (cl : Bool) (st : ExecState)
    (hs : executeState chain startLang code mc = Except.ok (cyc, cl, st)) :
    st.chain = chain ∧
      ∀ code2 mc2, execute_generation st.chain startLang code2 mc2 =
        execute_generation chain startLang code2 mc2 := by
  have hchain : st.chain = chain := by
    cases mc with
    | zero =>
      rw [executeState_zero] at hs
      simp only [Except.ok.injEq, Prod.mk.injEq] at hs
      obtain ⟨-, -, h3⟩ := hs
      rw [← h3]
    | succ n =>
      rw [executeState_pos h code (by omega)] at hs
      simp only [Except.ok.injEq, Prod.mk.injEq] at hs
      obtain ⟨-, -, h3⟩ := hs
      rw [← h3]
  exact ⟨hchain, fun code2 mc2 => by rw [hchain]⟩

/-- C8 witness: after executing the demonstration chain, the stored chain is
unchanged and a rerun behaves identically. -/
theorem execute_preserves_chain_witness :
    demoState.chain = demoChain ∧
      execute_generation demoState.chain "Ruby" "y" 1 =
        execute_generation demoChain "Ruby" "y" 1 :=
  ⟨(execute_preserves_chain "Ruby" demoChain demoChain rfl "x" 2 1 true
      demoState rfl).1,
    (execute_preserves_chain "Ruby" demoChain demoChain rfl "x" 2 1 true
      demoState rfl).2 "y" 1⟩

/-- C9: for every successfully constructed chain with transforms f1..fN,
every initial text t and cycle budget of at least 1, the final text is the
left-to-right composition fN(...f2(f1(t))...) applied once, because the
first repetition already closes. -/
theorem first_cycle_composes_transforms (startLang : String)
    (t chain : List TransformationStep)
    (h : pipelineInit startLang t = Except.ok chain) (code : String) (mc : Nat)
    (hmc : 1 ≤ mc) (r : ExecutionResult)
    (hr : execute_generation chain startLang code mc = Except.ok r) :
    r.final_code = applySeg code chain := by
  rw [execute_pos h code hmc] at hr
  simp only [Except.ok.injEq] at hr
  subst hr
  rfl

/-- C9 witness: the demonstration chain composes both transforms on "x". -/
theorem first_cycle_composes_transforms_witness :
    demoRun.final_code = applySeg "x" demoChain :=
  first_cycle_composes_transforms "Ruby" demoChain demoChain rfl "x" 2
    (by omega) demoRun rfl

/-- C10: on a successfully constructed chain, execution (later variant)
returns normally with `initial_code_snippet = extract_first_line code`;
when every line of the initial text strips to empty (in particular for the
empty text) the snippet is the literal "N/A", and otherwise it is the first
line that is non-empty after stripping surrounding whitespace. -/
theorem snippet_extraction (startLang : String)
    (t chain : List TransformationStep)
    (h : pipelineInit startLang t = Except.ok chain) (code : String) (mc : Nat) :
    (∃ r, execute_generation3 chain startLang code mc = Except.ok r ∧
      r.initial_code_snippet = extract_first_line code) ∧
    ((splitNl code).all (fun l => pyStrip l == "") = true →
      extract_first_line code = "N/A") ∧
    (∀ l rest, code ≠ "" →
      ((splitNl code).map pyStrip).filter (fun s => s != "") = l :: rest →
      extract_first_line code = l) := by
  refine ⟨?_, ?_, ?_⟩
  · cases mc with
    | zero => exact ⟨_, execute3_zero chain startLang code, rfl⟩
    | succ n => exact ⟨_, execute3_pos h code (by omega), rfl⟩
  · intro hall
    rw [extract_first_line]
    split_ifs with hc
    · rfl
    · have hnil : ((splitNl code).map pyStrip).filter (fun s => s != "") = [] := by
        rw [List.filter_eq_nil_iff]
        intro a ha
        simp only [List.mem_map] at ha
        obtain ⟨x, hx, rfl⟩ := ha
        have hx' := List.all_eq_true.mp hall x hx
        simp only [beq_iff_eq] at hx'
        simp [hx']
      rw [hnil]
  · intro l rest hc hfe
    rw [extract_first_line, if_neg hc, hfe]

/-- C10 witness: a whitespace-only text yields "N/A" and a text whose first
non-blank line is " hi " yields "hi". -/
theorem snippet_extraction_witness :
    extract_first_line "  \n " = "N/A" ∧ extract_first_line " \n hi \nx" = "hi" :=
  ⟨(snippet_extraction "Ruby" demoChain demoChain rfl "  \n " 1).2.1 rfl,
    (snippet_extraction "Ruby" demoChain demoChain rfl " \n hi \nx" 1).2.2 "hi"
      ["x"] (by decide) rfl⟩

end Ouroboros
